import Mathlib

/-!
Verification development for the agentic generate → verify → execute → retry →
remember pipeline (orchestrator, critic, executor, dataset profiler).

Shallow embedding conventions:
- Python strings are Lean `String`s; `needle in hay` is `strContains hay needle`.
- The LLM coder is an external collaborator, modelled as an arbitrary function
  from its `run` input to the produced code string.
- The effect of `exec(code, globals)` on the persistent binding environment is
  modelled by an arbitrary semantics function `PyEnv.sem` returning the mutated
  context, the captured stdout, and an optional raised-exception message.
- Fallible external library calls (`fig.to_json()`, `plt.savefig`) are
  modelled as `Option`-valued: `none` models a raised exception.
-/

/-- Python substring membership `needle in hay`. -/
def strContains (hay needle : String) : Bool :=
  (List.range (hay.data.length + 1)).any fun i => needle.data.isPrefixOf (hay.data.drop i)

/-- Accumulator pass splitting a character stream at whitespace runs. -/
def wordsAux : List Char → List Char → List (List Char)
  | [], acc => if acc = [] then [] else [acc.reverse]
  | c :: cs, acc =>
    if c.isWhitespace then
      (if acc = [] then wordsAux cs [] else acc.reverse :: wordsAux cs [])
    else wordsAux cs (c :: acc)

/-- Python `s.split()` : split on whitespace runs, dropping empty pieces. -/
def pyWords (s : String) : List String :=
  (wordsAux s.data []).map String.mk

/-- Python `s.lower()` (ASCII model). -/
def pyLower (s : String) : String :=
  String.mk (s.data.map Char.toLower)

/-- Python `s.strip()`. -/
def pyStrip (s : String) : String :=
  String.mk (((s.data.dropWhile Char.isWhitespace).reverse.dropWhile Char.isWhitespace).reverse)

/-- Python `s.replace('_', ' ')`. -/
def pyUnderscoreToSpace (s : String) : String :=
  String.mk (s.data.map fun ch => if ch = '_' then ' ' else ch)

/- ===== CriticAgent (src/agents/critic.py) ===== -/

/-- The denylist of the critic (`forbidden` in `CriticAgent.think`). -/
def forbiddenTerms : List String :=
  ["os.system", "subprocess", "shutil", "sys.exit", "rm -rf"]

/-- The issue list accumulated by `CriticAgent.think`: one security issue per
denylisted term found in the code, then a liveness issue when the code has
neither a `print(` call nor a plot pattern (`fig =` / `fig=` / `plt.`). -/
def criticIssues (code : String) : List String :=
  let security := forbiddenTerms.filterMap fun t =>
    if strContains code t then
      some ("Security Risk: Found forbidden term \x27" ++ t ++ "\x27")
    else none
  let hasPrint := strContains code "print("
  let hasPlot := strContains code "fig =" || strContains code "fig=" || strContains code "plt."
  security ++
    (if !hasPrint && !hasPlot then
      ["Logic Error: Code does not print output or generate a chart."]
    else [])

/-- `CriticAgent.run = think ∘ act`: the `result` string of the critic
`AgentResult` — `"APPROVED"` when no issues, otherwise `"REJECTED: "` followed
by all issues joined with `"; "`. -/
def critic_result (code : String) : String :=
  if criticIssues code = [] then "APPROVED"
  else "REJECTED: " ++ String.intercalate "; " (criticIssues code)

/- ===== helper lemmas on strContains ===== -/

theorem isPrefixOf_append_self : ∀ (l t : List Char), l.isPrefixOf (l ++ t) = true
  | [], _ => by simp [List.isPrefixOf]
  | c :: l, t => by
    simp only [List.cons_append, List.isPrefixOf, beq_self_eq_true, Bool.true_and]
    exact isPrefixOf_append_self l t

theorem strContains_append_left (a b : String) : strContains (a ++ b) a = true := by
  unfold strContains
  rw [List.any_eq_true]
  refine ⟨0, ?_, ?_⟩
  · simp
  · simp only [List.drop_zero]
    have h := isPrefixOf_append_self a.data b.data
    have hd : (a ++ b).data = a.data ++ b.data := by
      cases a; cases b; rfl
    rw [hd]
    exact h

/-- The rejection test of the orchestrator (`"REJECTED" in str(critic_result.result)`)
fires exactly when the critic found at least one issue. -/
theorem critic_rejected_iff (code : String) :
    strContains (critic_result code) "REJECTED" = true ↔ criticIssues code ≠ [] := by
  constructor
  · intro h hnil
    rw [critic_result, if_pos hnil] at h
    revert h
    decide
  · intro hne
    rw [critic_result, if_neg hne,
      show ("REJECTED: " : String) = "REJECTED" ++ ": " from by decide,
      String.append_assoc]
    exact strContains_append_left _ _

/- ===== CodeExecutor (src/core/execution_engine.py) ===== -/

/-- Opaque model of a Python runtime value bound in the execution globals. -/
abbrev PyVal := String

/-- A captured visualization artifact: a Plotly JSON export or a base64 PNG. -/
inductive Artifact where
  | plotly (json : String)
  | image (png : String)
deriving DecidableEq

/-- Model of the object bound to `fig` in the globals: whether it has a
`to_json` attribute, and the result of calling it (`none` models `to_json`
raising an exception, which `_capture_plot` swallows). -/
structure FigObj where
  hasToJson : Bool
  toJsonVal : Option String
deriving DecidableEq

/-- The persistent `self.globals` binding environment of the executor plus the
process-wide Matplotlib figure registry (`plt.get_fignums()`). -/
structure ExecCtx where
  figBinding : Option FigObj
  resultBinding : Option PyVal
  activeFigs : List Nat
  user : List (String × PyVal)
deriving DecidableEq

/-- Semantics of `exec(code, globals)` for the generated programs: the mutated
context (mutations persist even when an exception is raised mid-program), the
text written to stdout, and `some msg` when the program raises. The actual
behaviour of arbitrary Python is a parameter of the model. -/
structure PyEnv where
  sem : String → ExecCtx → ExecCtx × String × Option String
  renderPng : List Nat → Option String

/-- Model of `traceback.format_exc()` for a raised exception message. -/
def formatTraceback (msg : String) : String :=
  "Traceback (most recent call last):\n" ++ msg

/-- The denylist pre-check owned by the executor itself
(`"os.system" in code or "subprocess" in code or "sys.exit" in code`). -/
def denyTriggered (code : String) : Bool :=
  strContains code "os.system" || strContains code "subprocess" || strContains code "sys.exit"

/-- `CodeExecutor._capture_plot`, step 2: active Matplotlib figures are
rendered (`plt.savefig` + base64) and then closed; a rendering exception is
swallowed, returning no artifact and leaving the figures open. -/
def mplCapture (env : PyEnv) (figs : List Nat) : Option Artifact × List Nat :=
  match figs with
  | [] => (none, [])
  | _ =>
    match env.renderPng figs with
    | some img => (some (.image img), [])
    | none => (none, figs)

/-- `CodeExecutor._capture_plot`: a `fig` binding exposing `to_json` wins and
is serialized (an exception during serialization yields no artifact without
falling through); otherwise active Matplotlib figures are rendered. -/
def capture_plot (env : PyEnv) (figB : Option FigObj) (figs : List Nat) :
    Option Artifact × List Nat :=
  match figB with
  | some f =>
    if f.hasToJson then
      match f.toJsonVal with
      | some j => (some (.plotly j), figs)
      | none => (none, figs)
    else mplCapture env figs
  | none => mplCapture env figs

/-- The value `CodeExecutor.execute_code` returns: a 4-tuple
`(True, result, output, plot_data)` on success, but a 3-tuple
`(False, None, tb)` on failure. -/
inductive ExecRet where
  | ok (result : Option PyVal) (output : String) (plot : Option Artifact)
  | err (tb : String)
deriving DecidableEq

/-- `CodeExecutor.execute_code`: denylist pre-check (raising, caught below),
`exec` of the code against the persistent globals, then `result` lookup and
plot capture; any exception is converted to a failure return carrying the
full traceback text. -/
def execute_code (env : PyEnv) (code : String) (ctx : ExecCtx) : ExecCtx × ExecRet :=
  if denyTriggered code then
    (ctx, .err (formatTraceback "ValueError: Security Violation: Forbidden OS commands detected."))
  else
    match env.sem code ctx with
    | (ctx1, _, some emsg) => (ctx1, .err (formatTraceback emsg))
    | (ctx1, out, none) =>
      match capture_plot env ctx1.figBinding ctx1.activeFigs with
      | (plot, figs1) => ({ ctx1 with activeFigs := figs1 }, .ok ctx1.resultBinding out plot)

/- ===== OrchestratorAgent (src/agents/orchestrator.py) ===== -/

/-- Observable calls made while handling one query (instrumentation of the
pipeline; the source logs these transitions). -/
inductive Event where
  | attemptStart
  | coderCall (input : String)
  | criticCall (code : String)
  | execCall (code : String) (ret : ExecRet)
  | memorySave (query code : String)
deriving DecidableEq

/-- The tuple `_execute_with_retry` returns: `(success, result, output, plot_data)`. -/
structure RetryRet where
  success : Bool
  result : Option PyVal
  output : String
  plot : Option Artifact
deriving DecidableEq

/-- The separator the orchestrator uses to fold a failure trace into the
regeneration prompt (`f"{query}\n\nFIX THIS ERROR:\n{output}"`). -/
def sepFix : String := "\n\nFIX THIS ERROR:\n"

/-- The unpacking dance of one iteration in `_execute_with_retry`: the 4-way
unpack of the `execute_code` return raises `ValueError` on the failure-shaped 3-tuple,
and the `except ValueError` fallback re-runs the same code with a 3-way
unpack — which itself raises an uncaught `ValueError` if the re-run returns
the 4-tuple success shape. -/
def unpackAttempt (env : PyEnv) (code : String) (ctx : ExecCtx) :
    ExecCtx × List Event × Except String RetryRet :=
  match execute_code env code ctx with
  | (ctx1, .ok r out p) =>
    (ctx1, [Event.execCall code (.ok r out p)], .ok ⟨true, r, out, p⟩)
  | (ctx1, .err t1) =>
    match execute_code env code ctx1 with
    | (ctx2, .err t2) =>
      (ctx2, [Event.execCall code (.err t1), Event.execCall code (.err t2)],
        .ok ⟨false, none, t2, none⟩)
    | (ctx2, .ok r out p) =>
      (ctx2, [Event.execCall code (.err t1), Event.execCall code (.ok r out p)],
        .error "ValueError: too many values to unpack (expected 3)")

/-- The `for attempt in range(3)` loop of `_execute_with_retry`, recursing on
the remaining iteration budget: on failure the coder is re-prompted with the
failure trace and the loop continues on the regenerated code; when the budget
is exhausted the fixed failure tuple is returned. The coder is modelled as an
arbitrary function `coderRun` from its `run` input to the produced code. -/
def retryLoop (env : PyEnv) (coderRun : String → String) (query : String) :
    Nat → String → ExecCtx → ExecCtx × List Event × Except String RetryRet
  | 0, _, ctx => (ctx, [], .ok ⟨false, none, "Execution failed after 3 attempts.", none⟩)
  | Nat.succ n, code, ctx =>
    match unpackAttempt env code ctx with
    | (ctx1, ev1, .error f) => (ctx1, Event.attemptStart :: ev1, .error f)
    | (ctx1, ev1, .ok rr) =>
      if rr.success then (ctx1, Event.attemptStart :: ev1, .ok rr)
      else
        let p := query ++ sepFix ++ rr.output
        match retryLoop env coderRun query n (coderRun p) ctx1 with
        | (ctx2, ev2, res) =>
          (ctx2, (Event.attemptStart :: ev1) ++ Event.coderCall p :: ev2, res)

/-- `OrchestratorAgent._execute_with_retry` with its budget of 3 iterations. -/
def execute_with_retry (env : PyEnv) (coderRun : String → String) (query initialCode : String)
    (ctx : ExecCtx) : ExecCtx × List Event × Except String RetryRet :=
  retryLoop env coderRun query 3 initialCode ctx

/-- `OrchestratorAgent._synthesize_answer`. -/
def synthesize_answer (output : String) (success : Bool) : String :=
  if !success then "I failed to analyze the data. Error:\n" ++ output
  else
    let t := output.trim
    if t.length < 2000 then t
    else "Result:\n" ++ t.take 2000 ++ "..."

/-- The `AgentResult` of the orchestrator (metadata modelled by its two used keys). -/
structure AgentResult where
  agent : String
  action : String
  result : String
  confidence : ℚ
  metaCode : Option String
  metaPlot : Option Artifact
deriving DecidableEq

/-- `OrchestratorAgent.act` (with `think` passing the query through): ask the
coder, gate through the critic (`"REJECTED" in str(result)`), execute with
retry, save `(query, code)` to memory on success when memory is enabled —
note `code` here is still the initial code — and synthesize the answer.
An uncaught Python fault is propagated as `Except.error`. -/
def orchestrator_act (env : PyEnv) (coderRun : String → String) (memEnabled : Bool)
    (query : String) (ctx : ExecCtx) : ExecCtx × List Event × Except String AgentResult :=
  let code := coderRun query
  let criticRes := critic_result code
  if strContains criticRes "REJECTED" then
    (ctx, [Event.coderCall query, Event.criticCall code],
      .ok ⟨"Orchestrator", "error", "Code check failed: " ++ criticRes, 0, none, none⟩)
  else
    match execute_with_retry env coderRun query code ctx with
    | (ctx1, evs, .error f) =>
      (ctx1, Event.coderCall query :: Event.criticCall code :: evs, .error f)
    | (ctx1, evs, .ok rr) =>
      let saveEvs := if rr.success && memEnabled then [Event.memorySave query code] else []
      (ctx1, Event.coderCall query :: Event.criticCall code :: (evs ++ saveEvs),
        .ok ⟨"Orchestrator", "final_answer", synthesize_answer rr.output rr.success,
          if rr.success then 1 else 0, some code, rr.plot⟩)

/- ===== instrumentation counters ===== -/

/-- Recognizer for loop-iteration markers. -/
def isAttempt : Event → Bool
  | .attemptStart => true
  | _ => false

/-- Recognizer for safety-review invocations. -/
def isCritic : Event → Bool
  | .criticCall _ => true
  | _ => false

/-- Recognizer for executor invocations. -/
def isExec : Event → Bool
  | .execCall _ _ => true
  | _ => false

/-- Number of execution attempts (loop iterations) in an event trace. -/
def attemptCount (evs : List Event) : Nat := evs.countP isAttempt

/-- Number of safety-review invocations in an event trace. -/
def criticCount (evs : List Event) : Nat := evs.countP isCritic

/-- The `(intent, code)` pairs passed to `memory.save_context`. -/
def saveEvents : List Event → List (String × String)
  | [] => []
  | .memorySave q c :: r => (q, c) :: saveEvents r
  | _ :: r => saveEvents r

/-- True when no executor invocation in the trace ran the given code string. -/
def noExecOf (c : String) (evs : List Event) : Bool :=
  evs.all fun e =>
    match e with
    | .execCall c2 _ => c2 != c
    | _ => true

/-- True when the per-query pipeline completed with a success outcome
(`confidence == 1.0`; rejection and exhaustion both set 0.0, and an uncaught
fault produces no result at all). -/
def actConfident : Except String AgentResult → Bool
  | .ok r => r.confidence == 1
  | .error _ => false

/- ===== AgentContext._build_value_map (src/agents/agentic_base.py) ===== -/

/-- The stop-word list of `add_token`. -/
def stopwords : List String := ["the", "and", "for", "with", "from", "inc", "ltd"]

/-- The semantic value index: an insertion-ordered `{token: [columns]}` dict. -/
abbrev VMap := List (String × List String)

/-- Dict update `value_map[k].append(col)` creating the key if absent and
skipping the column if already present. -/
def vmAdd (m : VMap) (k c : String) : VMap :=
  match m with
  | [] => [(k, [c])]
  | (k0, cs0) :: rest =>
    if k0 = k then (k0, if c ∈ cs0 then cs0 else cs0 ++ [c]) :: rest
    else (k0, cs0) :: vmAdd rest k c

/-- The filter of `add_token`: tokens of length > 2 that are not stop words. -/
def tokOK (t : String) : Bool := decide (t.length > 2) && !(stopwords.contains t)

/-- `add_token(token, col)`. -/
def addTok (m : VMap) (tok col : String) : VMap :=
  if tokOK tok then vmAdd m tok col else m

/-- Tokenization of a column name: `col.lower().replace('_', ' ').split()`. -/
def colNameToks (c : String) : List String :=
  pyWords (pyUnderscoreToSpace (pyLower c))

/-- Phase 1 step: map every token of a column name to that column. -/
def addColName (m : VMap) (c : String) : VMap :=
  (colNameToks c).foldl (fun m2 t => addTok m2 t c) m

/-- A categorical column: its name and the sequence `data[col].unique()` of
distinct values, with `none` modelling a NaN entry. -/
structure CatColumn where
  name : String
  vals : List (Option String)

/-- The slice of a loaded dataset that `_build_value_map` consumes:
`categorical_cols` (with their distinct values) and `numeric_cols` names. -/
structure DataSet where
  catCols : List CatColumn
  numCols : List String

/-- Phase 2 step for one value of a column: normalize (`str(val).strip().lower()`),
skip NaN and empty strings, insert the full value unconditionally, then insert
its whitespace tokens through the `add_token` filter. -/
def addCatVal (cname : String) (m : VMap) (v? : Option String) : VMap :=
  match v? with
  | none => m
  | some v =>
    let vs := pyLower (pyStrip v)
    if vs = "" then m
    else
      let m1 := vmAdd m vs cname
      (pyWords vs).foldl (fun m2 t => addTok m2 t cname) m1

/-- Phase 2 step for one categorical column: skipped entirely when it has more
than 1000 distinct values. -/
def addCatVals (m : VMap) (col : CatColumn) : VMap :=
  if col.vals.length > 1000 then m
  else col.vals.foldl (addCatVal col.name) m

/-- `AgentContext._build_value_map`: phase 1 maps the name tokens of all
categorical and numeric columns; phase 2 maps the distinct values (and their
word tokens) of each categorical column within the cardinality guard. -/
def build_value_map (ds : DataSet) : VMap :=
  let allCols := ds.catCols.map (fun c => c.name) ++ ds.numCols
  let m1 := allCols.foldl addColName []
  ds.catCols.foldl addCatVals m1

/-- The index maps key `k` to column `c`. -/
abbrev mapsTo (m : VMap) (k c : String) : Prop :=
  ∃ cs, (k, cs) ∈ m ∧ c ∈ cs

/-- The keys of the index. -/
def vmKeys (m : VMap) : List String := m.map (fun e => e.1)

/- ===== specification-side predicate for the retry phase ===== -/

/-- Modelled from the spec (amended): the shape of the retry-phase event
trace. Each attempt executes the current code; a failure-shaped return makes
the fallback re-run the same code; after two failure returns the coder is
re-prompted with the query plus the second failure trace and the loop
continues on the regenerated code (the trace may also end right after a
regeneration, when the attempt budget is exhausted, or end in a fallback
re-run that returned the success shape). The safety reviewer never appears. -/
inductive RetryShape (q : String) (cr : String → String) : String → List Event → Prop where
  | exhaust (code : String) : RetryShape q cr code []
  | done (code : String) (r : Option PyVal) (out : String) (pl : Option Artifact) :
      RetryShape q cr code [Event.attemptStart, Event.execCall code (.ok r out pl)]
  | fault (code t : String) (r : Option PyVal) (out : String) (pl : Option Artifact) :
      RetryShape q cr code [Event.attemptStart, Event.execCall code (.err t),
        Event.execCall code (.ok r out pl)]
  | regen (code t t2 : String) (rest : List Event) :
      RetryShape q cr (cr (q ++ sepFix ++ t2)) rest →
      RetryShape q cr code (Event.attemptStart :: Event.execCall code (.err t) ::
        Event.execCall code (.err t2) :: Event.coderCall (q ++ sepFix ++ t2) :: rest)

/- ===== concrete fixtures for witnesses and counterexamples ===== -/

/-- The initial execution context: no `fig`, `result = None`, no figures. -/
def ctx0 : ExecCtx := ⟨none, none, [], []⟩

/-- An environment where every execution raises `E`. -/
def envFail : PyEnv := ⟨fun _ c => (c, "", some "E"), fun _ => some "png"⟩

/-- A coder that always produces the same short program. -/
def crConst : String → String := fun _ => "y"

/-- Environment for the unhandled-fault run: the program raises on first run
but leaves a `flag` binding behind, so the immediate fallback re-run succeeds. -/
def env3 : PyEnv :=
  ⟨fun _ c =>
    if c.user.isEmpty then ({ c with user := [("flag", "1")] }, "", some "E")
    else (c, "done", none),
   fun _ => some "png"⟩

/-- Coder for the unhandled-fault run. -/
def cr3 : String → String := fun _ => "print(1)"

/-- Environment where exactly the program `print(1)` fails. -/
def env4 : PyEnv :=
  ⟨fun code c => if code = "print(1)" then (c, "", some "E") else (c, "ok", none),
   fun _ => some "png"⟩

/-- Coder producing `print(1)` for the original query and `print(2)` for any
regeneration prompt. -/
def cr4 : String → String := fun s => if s = "q" then "print(1)" else "print(2)"

/-- Environment whose executions always raise, with the raised message equal
to the code text (so consecutive failure traces differ). -/
def env5 : PyEnv := ⟨fun code c => (c, "", some code), fun _ => some "png"⟩

/-- Coder that wraps its whole input in a `print(...)` call. -/
def cr5 : String → String := fun s => "print(" ++ s ++ ")"

/-- First generated program of the all-failures run under `cr5`. -/
def cx0 : String := "print(q)"

/-- First regeneration prompt of the all-failures run. -/
def px1 : String := "q" ++ sepFix ++ formatTraceback cx0

/-- Second generated program of the all-failures run. -/
def cx1 : String := "print(" ++ px1 ++ ")"

/-- Second regeneration prompt of the all-failures run. -/
def px2 : String := "q" ++ sepFix ++ formatTraceback cx1

/-- Third generated program of the all-failures run. -/
def cx2 : String := "print(" ++ px2 ++ ")"

/-- Third regeneration prompt of the all-failures run, issued after the final
failed attempt. -/
def px3 : String := "q" ++ sepFix ++ formatTraceback cx2

/-- Environment whose executions append a binding and raise: each run of the
program leaves one more observable side effect on the shared context. -/
def envX : PyEnv :=
  ⟨fun _ c => ({ c with user := ("t", "") :: c.user }, "", some "E"), fun _ => some "png"⟩

/-- 1001 pairwise-distinct categorical values `ε, a, aa, aaa, …`. -/
def vals1001 : List (Option String) :=
  (List.range 1001).map fun i => some (String.mk (List.replicate i 'a'))

/-- A categorical column named `aaa` with 1001 distinct values, one of which
is the string `aaa` itself. -/
def col8 : CatColumn := ⟨"aaa", vals1001⟩

/-- Dataset with a single high-cardinality categorical column. -/
def ds8 : DataSet := ⟨[col8], []⟩

/-- Dataset with one low-cardinality categorical column whose only value is
the two-character string `ab`. -/
def ds9 : DataSet := ⟨[⟨"colx", [some "ab"]⟩], []⟩

/-- A coder whose program neither prints nor plots, so the critic rejects it. -/
def crReject : String → String := fun _ => "x = 1"

/-- A figure object exposing a successful `to_json`. -/
def figJ : FigObj := ⟨true, some "J"⟩

/- ===== claim theorems ===== -/

theorem criticIssues_nil_iff (code : String) :
    criticIssues code = [] ↔
      ((forbiddenTerms.any fun t => strContains code t) ||
        (!(strContains code "print(") &&
          !(strContains code "fig =" || strContains code "fig=" || strContains code "plt."))) = false := by
  have hsec : (forbiddenTerms.filterMap fun t =>
      if strContains code t then
        some ("Security Risk: Found forbidden term \x27" ++ t ++ "\x27")
      else none) = [] ↔ (forbiddenTerms.any fun t => strContains code t) = false := by
    rw [List.filterMap_eq_nil_iff, List.any_eq_false]
    constructor
    · intro h t ht
      cases hct : strContains code t
      · simp
      · have h2 := h t ht
        rw [if_pos hct] at h2
        simp at h2
    · intro h t ht
      have h2 := h t ht
      simp at h2
      simp [h2]
  have htail : ∀ b : Bool,
      ((if b then ["Logic Error: Code does not print output or generate a chart."] else []) = []
        ↔ b = false) := by
    intro b
    cases b <;> simp
  simp only [criticIssues, List.append_eq_nil, Bool.or_eq_false_iff]
  rw [hsec, htail]

/-- Claim C6: the Safety Reviewer rejects a code string iff it contains at
least one forbidden substring of the fixed denylist, or it contains neither a
`print(` call nor one of the visualization patterns `fig =` / `fig=` / `plt.`;
otherwise it approves. The decision is a pure function of the code string
(`criticIssues` / `critic_result` make no external calls). -/
theorem c6_critic_rejects_iff (code : String) :
    strContains (critic_result code) "REJECTED" =
      ((forbiddenTerms.any fun t => strContains code t) ||
        (!(strContains code "print(") &&
          !(strContains code "fig =" || strContains code "fig=" || strContains code "plt."))) := by
  cases hAB : ((forbiddenTerms.any fun t => strContains code t) ||
      (!(strContains code "print(") &&
        !(strContains code "fig =" || strContains code "fig=" || strContains code "plt.")))
  · have h0 : criticIssues code = [] := (criticIssues_nil_iff code).mpr hAB
    rw [critic_result, if_pos h0]
    decide
  · have h0 : criticIssues code ≠ [] := by
      intro hnil
      rw [(criticIssues_nil_iff code).mp hnil] at hAB
      cases hAB
    exact (critic_rejected_iff code).mpr h0

/- ===== unfolding lemmas for the retry machinery ===== -/

theorem unpackAttempt_eq_ok (env : PyEnv) (code : String) (ctx c1 : ExecCtx)
    (r : Option PyVal) (out : String) (p : Option Artifact)
    (h1 : execute_code env code ctx = (c1, .ok r out p)) :
    unpackAttempt env code ctx =
      (c1, [Event.execCall code (.ok r out p)], .ok ⟨true, r, out, p⟩) := by
  unfold unpackAttempt
  rw [h1]

theorem unpackAttempt_eq_errerr (env : PyEnv) (code : String) (ctx c1 c2 : ExecCtx)
    (t1 t2 : String)
    (h1 : execute_code env code ctx = (c1, .err t1))
    (h2 : execute_code env code c1 = (c2, .err t2)) :
    unpackAttempt env code ctx =
      (c2, [Event.execCall code (.err t1), Event.execCall code (.err t2)],
        .ok ⟨false, none, t2, none⟩) := by
  unfold unpackAttempt
  rw [h1]
  dsimp only
  rw [h2]

theorem unpackAttempt_eq_errok (env : PyEnv) (code : String) (ctx c1 c2 : ExecCtx)
    (t1 : String) (r : Option PyVal) (out : String) (p : Option Artifact)
    (h1 : execute_code env code ctx = (c1, .err t1))
    (h2 : execute_code env code c1 = (c2, .ok r out p)) :
    unpackAttempt env code ctx =
      (c2, [Event.execCall code (.err t1), Event.execCall code (.ok r out p)],
        .error "ValueError: too many values to unpack (expected 3)") := by
  unfold unpackAttempt
  rw [h1]
  dsimp only
  rw [h2]

theorem unpack_events (env : PyEnv) (code : String) (ctx : ExecCtx) :
    ∀ e ∈ (unpackAttempt env code ctx).2.1, ∃ r2, e = Event.execCall code r2 := by
  intro e he
  rcases h1 : execute_code env code ctx with ⟨c1, r1⟩
  cases r1 with
  | ok r out p =>
    rw [unpackAttempt_eq_ok env code ctx c1 r out p h1] at he
    simp at he
    exact ⟨_, he⟩
  | err t1 =>
    rcases h2 : execute_code env code c1 with ⟨c2, r2⟩
    cases r2 with
    | ok r out p =>
      rw [unpackAttempt_eq_errok env code ctx c1 c2 t1 r out p h1 h2] at he
      simp at he
      rcases he with he | he <;> exact ⟨_, he⟩
    | err t2 =>
      rw [unpackAttempt_eq_errerr env code ctx c1 c2 t1 t2 h1 h2] at he
      simp at he
      rcases he with he | he <;> exact ⟨_, he⟩

theorem retryLoop_succ_error (env : PyEnv) (cr : String → String) (q : String) (n : Nat)
    (code : String) (ctx c1 : ExecCtx) (ev1 : List Event) (f : String)
    (hu : unpackAttempt env code ctx = (c1, ev1, .error f)) :
    retryLoop env cr q (n + 1) code ctx = (c1, Event.attemptStart :: ev1, .error f) := by
  unfold retryLoop
  rw [hu]

theorem retryLoop_succ_ok_true (env : PyEnv) (cr : String → String) (q : String) (n : Nat)
    (code : String) (ctx c1 : ExecCtx) (ev1 : List Event) (rr : RetryRet)
    (hu : unpackAttempt env code ctx = (c1, ev1, .ok rr)) (hs : rr.success = true) :
    retryLoop env cr q (n + 1) code ctx = (c1, Event.attemptStart :: ev1, .ok rr) := by
  unfold retryLoop
  rw [hu]
  simp [hs]

theorem retryLoop_succ_ok_false (env : PyEnv) (cr : String → String) (q : String) (n : Nat)
    (code : String) (ctx c1 : ExecCtx) (ev1 : List Event) (rr : RetryRet)
    (hu : unpackAttempt env code ctx = (c1, ev1, .ok rr)) (hs : rr.success = false) :
    retryLoop env cr q (n + 1) code ctx =
      ((retryLoop env cr q n (cr (q ++ sepFix ++ rr.output)) c1).1,
        (Event.attemptStart :: ev1) ++ Event.coderCall (q ++ sepFix ++ rr.output) ::
          (retryLoop env cr q n (cr (q ++ sepFix ++ rr.output)) c1).2.1,
        (retryLoop env cr q n (cr (q ++ sepFix ++ rr.output)) c1).2.2) := by
  conv_lhs => unfold retryLoop
  rw [hu]
  dsimp only
  rw [if_neg (by simp [hs])]

theorem attemptCount_unpack (env : PyEnv) (code : String) (ctx : ExecCtx) :
    attemptCount (unpackAttempt env code ctx).2.1 = 0 := by
  rw [attemptCount, List.countP_eq_zero]
  intro e he
  obtain ⟨r2, rfl⟩ := unpack_events env code ctx e he
  simp [isAttempt]

theorem retry_attemptCount_le (env : PyEnv) (cr : String → String) (q : String) :
    ∀ (n : Nat) (code : String) (ctx : ExecCtx),
      attemptCount (retryLoop env cr q n code ctx).2.1 ≤ n := by
  intro n
  induction n with
  | zero =>
    intro code ctx
    simp [retryLoop, attemptCount]
  | succ n ih =>
    intro code ctx
    rcases hu : unpackAttempt env code ctx with ⟨c1, ev1, r⟩
    have hev1 : attemptCount ev1 = 0 := by
      have h0 := attemptCount_unpack env code ctx
      rw [hu] at h0
      exact h0
    cases r with
    | error f =>
      rw [retryLoop_succ_error env cr q n code ctx c1 ev1 f hu]
      simp only [attemptCount, List.countP_cons] at *
      simp [isAttempt, hev1]
    | ok rr =>
      cases hs : rr.success
      · rw [retryLoop_succ_ok_false env cr q n code ctx c1 ev1 rr hu hs]
        have h2 := ih (cr (q ++ sepFix ++ rr.output)) c1
        simp only [attemptCount, List.countP_cons, List.countP_append] at *
        simp [isAttempt, hev1] at *
        omega
      · rw [retryLoop_succ_ok_true env cr q n code ctx c1 ev1 rr hu hs]
        simp only [attemptCount, List.countP_cons] at *
        simp [isAttempt, hev1]

theorem retry_ok_not_success (env : PyEnv) (cr : String → String) (q : String) :
    ∀ (n : Nat) (code : String) (ctx : ExecCtx) (rr : RetryRet),
      (retryLoop env cr q n code ctx).2.2 = .ok rr → rr.success = false →
      rr = ⟨false, none, "Execution failed after 3 attempts.", none⟩ := by
  intro n
  induction n with
  | zero =>
    intro code ctx rr h _
    simp [retryLoop] at h
    exact h.symm
  | succ n ih =>
    intro code ctx rr h hs
    rcases hu : unpackAttempt env code ctx with ⟨c1, ev1, r⟩
    cases r with
    | error f =>
      rw [retryLoop_succ_error env cr q n code ctx c1 ev1 f hu] at h
      simp at h
    | ok rr1 =>
      cases hs1 : rr1.success
      · rw [retryLoop_succ_ok_false env cr q n code ctx c1 ev1 rr1 hu hs1] at h
        exact ih (cr (q ++ sepFix ++ rr1.output)) c1 rr h hs
      · rw [retryLoop_succ_ok_true env cr q n code ctx c1 ev1 rr1 hu hs1] at h
        simp at h
        rw [← h] at hs
        rw [hs1] at hs
        cases hs

/-- Claim C1: for every query, coder behaviour and execution semantics, the
retry loop performs at most 3 execution attempts (and is a total function,
hence terminates); whenever it completes with a non-success outcome — i.e.
all attempts failed — the returned tuple is exactly
`(False, None, "Execution failed after 3 attempts.", None)`. -/
theorem c1_retry_bounded (env : PyEnv) (cr : String → String) (q code : String) (ctx : ExecCtx) :
    attemptCount (execute_with_retry env cr q code ctx).2.1 ≤ 3 ∧
    ∀ rr, (execute_with_retry env cr q code ctx).2.2 = .ok rr → rr.success = false →
      rr = ⟨false, none, "Execution failed after 3 attempts.", none⟩ :=
  ⟨retry_attemptCount_le env cr q 3 code ctx,
    fun rr h hs => retry_ok_not_success env cr q 3 code ctx rr h hs⟩

/-- Witness for C1 on a concrete always-failing run: all three attempts fail
and the exhaustion tuple is returned. -/
theorem c1_witness :
    attemptCount (execute_with_retry envFail crConst "q" "c" ctx0).2.1 ≤ 3 ∧
    (⟨false, none, "Execution failed after 3 attempts.", none⟩ : RetryRet) =
      ⟨false, none, "Execution failed after 3 attempts.", none⟩ :=
  ⟨(c1_retry_bounded envFail crConst "q" "c" ctx0).1,
    (c1_retry_bounded envFail crConst "q" "c" ctx0).2
      ⟨false, none, "Execution failed after 3 attempts.", none⟩ rfl rfl⟩

/-- Claim C2: when the Safety Reviewer rejects the generated code, the
pipeline returns immediately with a rejection result whose message lists all
triggered reasons; no execution attempt is performed and the attempt counter
stays at zero, and nothing is saved to memory. -/
theorem c2_rejection_terminal (env : PyEnv) (cr : String → String) (mem : Bool)
    (q : String) (ctx : ExecCtx) (hrej : criticIssues (cr q) ≠ []) :
    (orchestrator_act env cr mem q ctx).2.2 =
      .ok ⟨"Orchestrator", "error", "Code check failed: " ++ critic_result (cr q),
        0, none, none⟩ ∧
    critic_result (cr q) =
      "REJECTED: " ++ String.intercalate "; " (criticIssues (cr q)) ∧
    (orchestrator_act env cr mem q ctx).2.1 = [Event.coderCall q, Event.criticCall (cr q)] ∧
    attemptCount (orchestrator_act env cr mem q ctx).2.1 = 0 ∧
    (∀ e ∈ (orchestrator_act env cr mem q ctx).2.1, isExec e = false) ∧
    saveEvents (orchestrator_act env cr mem q ctx).2.1 = [] := by
  have hb : strContains (critic_result (cr q)) "REJECTED" = true :=
    (critic_rejected_iff (cr q)).mpr hrej
  have hact : orchestrator_act env cr mem q ctx =
      (ctx, [Event.coderCall q, Event.criticCall (cr q)],
        .ok ⟨"Orchestrator", "error", "Code check failed: " ++ critic_result (cr q),
          0, none, none⟩) := by
    simp only [orchestrator_act]
    rw [if_pos hb]
  refine ⟨by rw [hact], by rw [critic_result, if_neg hrej], by rw [hact], ?_, ?_, ?_⟩
  · rw [hact]
    rfl
  · rw [hact]
    intro e he
    simp at he
    rcases he with he | he <;> subst he <;> rfl
  · rw [hact]
    rfl

/-- Witness for C2 on a concrete run whose generated code prints nothing. -/
theorem c2_witness :
    criticIssues (crReject "q") ≠ [] ∧
    attemptCount (orchestrator_act envFail crReject true "q" ctx0).2.1 = 0 ∧
    saveEvents (orchestrator_act envFail crReject true "q" ctx0).2.1 = [] :=
  ⟨by decide,
    (c2_rejection_terminal envFail crReject true "q" ctx0 (by decide)).2.2.2.1,
    (c2_rejection_terminal envFail crReject true "q" ctx0 (by decide)).2.2.2.2.2⟩

/-- Claim C10: whenever an execution attempt inside the retry loop fails, the
executor is invoked a second time with the same code string before any
regeneration (the failure-shaped 3-tuple makes the 4-way unpack raise
`ValueError`, and the fallback re-runs the code), and the second invocation
runs against the context already mutated by the first — so a failing
program applies its side effects on the shared execution context twice per
attempt. -/
theorem c10_double_execution (env : PyEnv) (cr : String → String) (q code : String)
    (ctx : ExecCtx) (t : String)
    (hfail : (execute_code env code ctx).2 = .err t) :
    ∃ rest,
      (execute_with_retry env cr q code ctx).2.1 =
        Event.attemptStart :: Event.execCall code (.err t) ::
          Event.execCall code (execute_code env code (execute_code env code ctx).1).2 :: rest ∧
      (unpackAttempt env code ctx).1 =
        (execute_code env code (execute_code env code ctx).1).1 := by
  rcases h1 : execute_code env code ctx with ⟨c1, r1⟩
  have hc1 : (execute_code env code ctx).1 = c1 := by rw [h1]
  have ht : r1 = .err t := by
    rw [h1] at hfail
    exact hfail
  subst ht
  rcases h2 : execute_code env code c1 with ⟨c2, r2⟩
  simp only [execute_with_retry, show (3 : Nat) = 2 + 1 from rfl]
  cases r2 with
  | err t2 =>
    have hu := unpackAttempt_eq_errerr env code ctx c1 c2 t t2 h1 h2
    rw [retryLoop_succ_ok_false env cr q 2 code ctx c2 _ ⟨false, none, t2, none⟩ hu rfl]
    refine ⟨Event.coderCall (q ++ sepFix ++ t2) ::
        (retryLoop env cr q 2 (cr (q ++ sepFix ++ t2)) c2).2.1, ?_, ?_⟩
    · rfl
    · rw [hu]
  | ok r out p =>
    have hu := unpackAttempt_eq_errok env code ctx c1 c2 t r out p h1 h2
    rw [retryLoop_succ_error env cr q 2 code ctx c2 _ _ hu]
    refine ⟨[], ?_, ?_⟩
    · rfl
    · rw [hu]

/-- Witness for C10 on a concrete run: the program appends a binding to the
context and raises, and the trace shows the same code executed twice in the
first attempt, the second time against the once-mutated context. -/
theorem c10_witness :
    ∃ rest,
      (execute_with_retry envX crConst "q" "c" ctx0).2.1 =
        Event.attemptStart :: Event.execCall "c" (.err (formatTraceback "E")) ::
          Event.execCall "c" (execute_code envX "c" (execute_code envX "c" ctx0).1).2 :: rest ∧
      (unpackAttempt envX "c" ctx0).1 =
        (execute_code envX "c" (execute_code envX "c" ctx0).1).1 :=
  c10_double_execution envX crConst "q" "c" ctx0 (formatTraceback "E") rfl

/-- Claim C3 (code bug): the executor itself converts every raised exception
into a failure return carrying the traceback text, but the pipeline boundary
is not fault-free: when the failing program mutates the context so that the
fallback re-run succeeds, `execute_code` returns the 4-tuple success shape to
the 3-way fallback unpacking and the resulting `ValueError` escapes
`OrchestratorAgent.act` uncaught. -/
theorem c3_unhandled_fault :
    (orchestrator_act env3 cr3 false "q" ctx0).2.2 =
      .error "ValueError: too many values to unpack (expected 3)" ∧
    execute_code env3 "print(1)" ctx0 =
      (⟨none, none, [], [("flag", "1")]⟩, .err (formatTraceback "E")) := by
  constructor <;> rfl

theorem retry_shape (env : PyEnv) (cr : String → String) (q : String) :
    ∀ (n : Nat) (code : String) (ctx : ExecCtx),
      RetryShape q cr code (retryLoop env cr q n code ctx).2.1 := by
  intro n
  induction n with
  | zero =>
    intro code ctx
    exact RetryShape.exhaust code
  | succ n ih =>
    intro code ctx
    rcases h1 : execute_code env code ctx with ⟨c1, r1⟩
    cases r1 with
    | ok r out p =>
      have hu := unpackAttempt_eq_ok env code ctx c1 r out p h1
      rw [retryLoop_succ_ok_true env cr q n code ctx c1 _ _ hu rfl]
      exact RetryShape.done code r out p
    | err t1 =>
      rcases h2 : execute_code env code c1 with ⟨c2, r2⟩
      cases r2 with
      | ok r out p =>
        have hu := unpackAttempt_eq_errok env code ctx c1 c2 t1 r out p h1 h2
        rw [retryLoop_succ_error env cr q n code ctx c2 _ _ hu]
        exact RetryShape.fault code t1 r out p
      | err t2 =>
        have hu := unpackAttempt_eq_errerr env code ctx c1 c2 t1 t2 h1 h2
        rw [retryLoop_succ_ok_false env cr q n code ctx c2 _ ⟨false, none, t2, none⟩ hu rfl]
        exact RetryShape.regen code t1 t2 _ (ih (cr (q ++ sepFix ++ t2)) c2)

theorem shape_no_critic (q : String) (cr : String → String) :
    ∀ (code : String) (evs : List Event), RetryShape q cr code evs →
      ∀ e ∈ evs, isCritic e = false := by
  intro code evs h
  induction h with
  | exhaust c =>
    intro e he
    simp at he
  | done c r out pl =>
    intro e he
    simp at he
    rcases he with he | he <;> subst he <;> rfl
  | fault c t r out pl =>
    intro e he
    simp at he
    rcases he with he | he | he <;> subst he <;> rfl
  | regen c t t2 rest hrest ih =>
    intro e he
    simp at he
    rcases he with he | he | he | he | he
    · subst he; rfl
    · subst he; rfl
    · subst he; rfl
    · subst he; rfl
    · exact ih e he

/-- Claim C5 (amended): the safety review runs exactly once per query and
before anything else (in particular before every execution); the retry phase
of the event trace satisfies `RetryShape` — every regeneration prompt is the
query plus the failure trace of the preceding attempt, the regenerated code is
what the next attempt executes, and the reviewer is never consulted again —
with the amendment that after the final failed attempt the regenerated code
is discarded rather than executed. -/
theorem c5_review_once_regen (env : PyEnv) (cr : String → String) (mem : Bool)
    (q : String) (ctx : ExecCtx) :
    ∃ retryEvs saveEvs,
      (orchestrator_act env cr mem q ctx).2.1 =
        Event.coderCall q :: Event.criticCall (cr q) :: (retryEvs ++ saveEvs) ∧
      RetryShape q cr (cr q) retryEvs ∧
      (∀ e ∈ saveEvs, ∃ a b, e = Event.memorySave a b) ∧
      criticCount (orchestrator_act env cr mem q ctx).2.1 = 1 := by
  by_cases hrej : strContains (critic_result (cr q)) "REJECTED" = true
  · have hact : orchestrator_act env cr mem q ctx =
        (ctx, [Event.coderCall q, Event.criticCall (cr q)],
          .ok ⟨"Orchestrator", "error", "Code check failed: " ++ critic_result (cr q),
            0, none, none⟩) := by
      simp only [orchestrator_act]
      rw [if_pos hrej]
    refine ⟨[], [], ?_, RetryShape.exhaust (cr q), ?_, ?_⟩
    · rw [hact]
      rfl
    · intro e he
      simp at he
    · rw [hact]
      rfl
  · rcases hr : execute_with_retry env cr q (cr q) ctx with ⟨c1, evs, res⟩
    have hshape : RetryShape q cr (cr q) evs := by
      have h0 := retry_shape env cr q 3 (cr q) ctx
      have h1 : retryLoop env cr q 3 (cr q) ctx = (c1, evs, res) := hr
      rw [h1] at h0
      exact h0
    have h0crit : List.countP isCritic evs = 0 := by
      rw [List.countP_eq_zero]
      intro e he
      rw [shape_no_critic q cr (cr q) evs hshape e he]
      simp
    cases res with
    | error f =>
      have hact : orchestrator_act env cr mem q ctx =
          (c1, Event.coderCall q :: Event.criticCall (cr q) :: evs, .error f) := by
        simp only [orchestrator_act]
        rw [if_neg hrej, hr]
      refine ⟨evs, [], ?_, hshape, ?_, ?_⟩
      · rw [hact]
        simp
      · intro e he
        simp at he
      · rw [hact, criticCount]
        simp [List.countP_cons, isCritic, h0crit]
    | ok rr =>
      have hact : orchestrator_act env cr mem q ctx =
          (c1, Event.coderCall q :: Event.criticCall (cr q) ::
            (evs ++ (if rr.success && mem then [Event.memorySave q (cr q)] else [])),
           .ok ⟨"Orchestrator", "final_answer", synthesize_answer rr.output rr.success,
             if rr.success then 1 else 0, some (cr q), rr.plot⟩) := by
        simp only [orchestrator_act]
        rw [if_neg hrej, hr]
      refine ⟨evs, (if rr.success && mem then [Event.memorySave q (cr q)] else []),
        ?_, hshape, ?_, ?_⟩
      · rw [hact]
      · intro e he
        by_cases hc : (rr.success && mem) = true
        · rw [if_pos hc] at he
          simp at he
          exact ⟨q, cr q, he⟩
        · rw [if_neg hc] at he
          simp at he
      · rw [hact, criticCount]
        have hsaves : List.countP isCritic
            (if rr.success && mem then [Event.memorySave q (cr q)] else []) = 0 := by
          by_cases hc : (rr.success && mem) = true
          · rw [if_pos hc]
            rfl
          · rw [if_neg hc]
            rfl
        simp [List.countP_cons, List.countP_append, h0crit, hsaves, isCritic]
        intro a _ _ ha
        subst ha
        rfl

theorem saveEvents_append (a b : List Event) :
    saveEvents (a ++ b) = saveEvents a ++ saveEvents b := by
  induction a with
  | nil => rfl
  | cons e l ih => cases e <;> simp [saveEvents, ih]

theorem shape_no_save (q : String) (cr : String → String) :
    ∀ (code : String) (evs : List Event), RetryShape q cr code evs →
      saveEvents evs = [] := by
  intro code evs h
  induction h with
  | exhaust c => rfl
  | done c r out pl => rfl
  | fault c t r out pl => rfl
  | regen c t t2 rest hrest ih => exact ih

/-- Claim C4 (amended): a memory write happens iff the pipeline ends in
success and memory is enabled, and it is exactly one write of the pair
`(query, initially generated code)` — the saved code is the first program the
coder produced, not the regenerated program whose execution succeeded. It is
never invoked on rejection, exhaustion, or an uncaught fault. -/
theorem c4_memory_saves_initial_code (env : PyEnv) (cr : String → String) (mem : Bool)
    (q : String) (ctx : ExecCtx) :
    saveEvents (orchestrator_act env cr mem q ctx).2.1 =
      if mem && actConfident (orchestrator_act env cr mem q ctx).2.2 then [(q, cr q)]
      else [] := by
  by_cases hrej : strContains (critic_result (cr q)) "REJECTED" = true
  · have hact : orchestrator_act env cr mem q ctx =
        (ctx, [Event.coderCall q, Event.criticCall (cr q)],
          .ok ⟨"Orchestrator", "error", "Code check failed: " ++ critic_result (cr q),
            0, none, none⟩) := by
      simp only [orchestrator_act]
      rw [if_pos hrej]
    rw [hact]
    have h01 : ((0 : ℚ) == 1) = false := by decide
    simp [saveEvents, actConfident, h01]
  · rcases hr : execute_with_retry env cr q (cr q) ctx with ⟨c1, evs, res⟩
    have hshape : RetryShape q cr (cr q) evs := by
      have h0 := retry_shape env cr q 3 (cr q) ctx
      have h1 : retryLoop env cr q 3 (cr q) ctx = (c1, evs, res) := hr
      rw [h1] at h0
      exact h0
    have hnosave : saveEvents evs = [] := shape_no_save q cr (cr q) evs hshape
    cases res with
    | error f =>
      have hact : orchestrator_act env cr mem q ctx =
          (c1, Event.coderCall q :: Event.criticCall (cr q) :: evs, .error f) := by
        simp only [orchestrator_act]
        rw [if_neg hrej, hr]
      rw [hact]
      simp [saveEvents, actConfident, hnosave]
    | ok rr =>
      have hact : orchestrator_act env cr mem q ctx =
          (c1, Event.coderCall q :: Event.criticCall (cr q) ::
            (evs ++ (if rr.success && mem then [Event.memorySave q (cr q)] else [])),
           .ok ⟨"Orchestrator", "final_answer", synthesize_answer rr.output rr.success,
             if rr.success then 1 else 0, some (cr q), rr.plot⟩) := by
        simp only [orchestrator_act]
        rw [if_neg hrej, hr]
      rw [hact]
      show saveEvents (Event.coderCall q :: Event.criticCall (cr q) ::
          (evs ++ (if rr.success && mem then [Event.memorySave q (cr q)] else []))) = _
      cases hs : rr.success
      · have h01 : ((0 : ℚ) == 1) = false := by decide
        simp [saveEvents, saveEvents_append, actConfident, hnosave, hs, h01]
      · have h11 : ((1 : ℚ) == 1) = true := by decide
        simp [saveEvents, saveEvents_append, actConfident, hnosave, hs, h11]
        cases mem <;> rfl

/-- Counterexample for C4 as stated: on a run whose first program fails and
whose regenerated program succeeds, the memory write records the initial
program `print(1)`, not the program `print(2)` whose execution succeeded. -/
theorem c4_counterexample :
    saveEvents (orchestrator_act env4 cr4 true "q" ctx0).2.1 = [("q", "print(1)")] ∧
    Event.execCall "print(2)" (ExecRet.ok none "ok" none) ∈
      (orchestrator_act env4 cr4 true "q" ctx0).2.1 ∧
    ("print(1)" : String) ≠ "print(2)" := by
  refine ⟨rfl, by decide, by decide⟩

set_option maxRecDepth 40000 in
/-- Counterexample for C5 as stated: in a run where all three attempts fail,
the last event is a regeneration (`coderCall px3`), and the code regenerated
from that prompt is never executed — so "on every execution failure the
pipeline … re-executes the regenerated code" fails for the final failure. -/
theorem c5_counterexample :
    (orchestrator_act env5 cr5 false "q" ctx0).2.1.getLast? =
      some (Event.coderCall px3) ∧
    noExecOf (cr5 px3) (orchestrator_act env5 cr5 false "q" ctx0).2.1 = true := by
  constructor <;> rfl

/-- Claim C7: artifact capture returns at most one visualization (its return
type is an `Option`), chosen by priority: a bound `fig` exposing `to_json`
whose serialization succeeds is returned as the structured export with the
figure registry untouched; otherwise, when Matplotlib figures are active and
render successfully, a single embedded raster image is returned and the
active figures are cleared; otherwise no artifact is returned. -/
theorem c7_capture_priority (env : PyEnv) (figB : Option FigObj) (figs : List Nat) :
    (∀ f j, figB = some f → f.hasToJson = true → f.toJsonVal = some j →
      capture_plot env figB figs = (some (.plotly j), figs)) ∧
    (∀ img, (figB = none ∨ ∃ f, figB = some f ∧ f.hasToJson = false) →
      figs ≠ [] → env.renderPng figs = some img →
      capture_plot env figB figs = (some (.image img), [])) ∧
    ((figB = none ∨ ∃ f, figB = some f ∧ f.hasToJson = false) → figs = [] →
      capture_plot env figB figs = (none, [])) := by
  refine ⟨?_, ?_, ?_⟩
  · intro f j hf hj hv
    subst hf
    simp [capture_plot, hj, hv]
  · intro img hf hne hr
    have hm : mplCapture env figs = (some (.image img), []) := by
      cases figs with
      | nil => exact absurd rfl hne
      | cons a l => simp [mplCapture, hr]
    rcases hf with hf | ⟨f, hf, hjf⟩
    · subst hf
      simp [capture_plot, hm]
    · subst hf
      simp [capture_plot, hjf, hm]
  · intro hf hnil
    subst hnil
    have hm : mplCapture env [] = (none, []) := rfl
    rcases hf with hf | ⟨f, hf, hjf⟩
    · subst hf
      simp [capture_plot, hm]
    · subst hf
      simp [capture_plot, hjf, hm]

/-- Witness for C7: with a `fig` exposing a successful `to_json` and one
active Matplotlib figure, the Plotly export wins and the figure stays open. -/
theorem c7_witness :
    figJ.hasToJson = true ∧
    capture_plot envFail (some figJ) [1] = (some (.plotly "J"), [1]) :=
  ⟨rfl, (c7_capture_priority envFail (some figJ) [1]).1 figJ "J" rfl rfl rfl⟩

/- ===== invariants of the semantic value index ===== -/

theorem mapsTo_vmAdd (k c : String) :
    ∀ (m : VMap) (k2 d : String), mapsTo (vmAdd m k c) k2 d →
      mapsTo m k2 d ∨ (k2 = k ∧ d = c) := by
  intro m
  induction m with
  | nil =>
    rintro k2 d ⟨cs, hmem, hd⟩
    simp [vmAdd] at hmem
    rcases hmem with ⟨hk, hcs⟩
    subst hcs
    simp at hd
    exact Or.inr ⟨hk, hd⟩
  | cons e rest ih =>
    obtain ⟨k0, cs0⟩ := e
    rintro k2 d ⟨cs, hmem, hd⟩
    by_cases hk : k0 = k
    · rw [vmAdd, if_pos hk] at hmem
      rcases List.mem_cons.mp hmem with heq | hmem2
      · rw [Prod.mk.injEq] at heq
        obtain ⟨hk2, hcs⟩ := heq
        subst hcs
        subst hk2
        by_cases hc : c ∈ cs0
        · rw [if_pos hc] at hd
          exact Or.inl ⟨cs0, List.mem_cons_self _ _, hd⟩
        · rw [if_neg hc] at hd
          rcases List.mem_append.mp hd with hd1 | hd1
          · exact Or.inl ⟨cs0, List.mem_cons_self _ _, hd1⟩
          · simp at hd1
            exact Or.inr ⟨hk, hd1⟩
      · exact Or.inl ⟨cs, List.mem_cons_of_mem _ hmem2, hd⟩
    · rw [vmAdd, if_neg hk] at hmem
      rcases List.mem_cons.mp hmem with heq | hmem2
      · exact Or.inl ⟨cs, by rw [heq]; exact List.mem_cons_self _ _, hd⟩
      · rcases ih k2 d ⟨cs, hmem2, hd⟩ with h1 | h1
        · obtain ⟨cs2, hm2, hd2⟩ := h1
          exact Or.inl ⟨cs2, List.mem_cons_of_mem _ hm2, hd2⟩
        · exact Or.inr h1

theorem mapsTo_addTok (m : VMap) (tok col k d : String) :
    mapsTo (addTok m tok col) k d →
      mapsTo m k d ∨ (tokOK tok = true ∧ k = tok ∧ d = col) := by
  intro h
  rw [addTok] at h
  by_cases hok : tokOK tok = true
  · rw [if_pos hok] at h
    rcases mapsTo_vmAdd tok col m k d h with h1 | h1
    · exact Or.inl h1
    · exact Or.inr ⟨hok, h1⟩
  · rw [if_neg hok] at h
    exact Or.inl h

theorem mapsTo_foldl_addTok (col : String) :
    ∀ (toks : List String) (m : VMap) (k d : String),
      mapsTo (toks.foldl (fun m2 t => addTok m2 t col) m) k d →
      mapsTo m k d ∨ (tokOK k = true ∧ k ∈ toks ∧ d = col) := by
  intro toks
  induction toks with
  | nil =>
    intro m k d h
    exact Or.inl h
  | cons t ts ih =>
    intro m k d h
    rcases ih (addTok m t col) k d h with h1 | ⟨hok, hk, hd⟩
    · rcases mapsTo_addTok m t col k d h1 with h2 | ⟨hok, hk, hd⟩
      · exact Or.inl h2
      · subst hk
        exact Or.inr ⟨hok, List.mem_cons_self _ _, hd⟩
    · exact Or.inr ⟨hok, List.mem_cons_of_mem _ hk, hd⟩

theorem mapsTo_foldl_names :
    ∀ (cols : List String) (m : VMap) (k d : String),
      mapsTo (cols.foldl addColName m) k d →
      mapsTo m k d ∨ (tokOK k = true ∧ k ∈ colNameToks d ∧ d ∈ cols) := by
  intro cols
  induction cols with
  | nil =>
    intro m k d h
    exact Or.inl h
  | cons c cs ih =>
    intro m k d h
    rcases ih (addColName m c) k d h with h1 | ⟨hok, hk, hd⟩
    · rw [addColName] at h1
      rcases mapsTo_foldl_addTok c (colNameToks c) m k d h1 with h2 | ⟨hok, hk, hd⟩
      · exact Or.inl h2
      · subst hd
        exact Or.inr ⟨hok, hk, List.mem_cons_self _ _⟩
    · exact Or.inr ⟨hok, hk, List.mem_cons_of_mem _ hd⟩

theorem mapsTo_addCatVal (cname : String) (m : VMap) (v? : Option String) (k d : String) :
    mapsTo (addCatVal cname m v?) k d → mapsTo m k d ∨ d = cname := by
  intro h
  cases v? with
  | none => exact Or.inl h
  | some v =>
    rw [addCatVal] at h
    by_cases hv : pyLower (pyStrip v) = ""
    · rw [if_pos hv] at h
      exact Or.inl h
    · rw [if_neg hv] at h
      rcases mapsTo_foldl_addTok cname (pyWords (pyLower (pyStrip v)))
          (vmAdd m (pyLower (pyStrip v)) cname) k d h with h1 | ⟨_, _, hd⟩
      · rcases mapsTo_vmAdd (pyLower (pyStrip v)) cname m k d h1 with h2 | ⟨_, hd⟩
        · exact Or.inl h2
        · exact Or.inr hd
      · exact Or.inr hd

theorem mapsTo_addCatVals (m : VMap) (col : CatColumn) (k d : String) :
    mapsTo (addCatVals m col) k d →
      mapsTo m k d ∨ (d = col.name ∧ col.vals.length ≤ 1000) := by
  intro h
  rw [addCatVals] at h
  by_cases hlen : col.vals.length > 1000
  · rw [if_pos hlen] at h
    exact Or.inl h
  · rw [if_neg hlen] at h
    have hle : col.vals.length ≤ 1000 := Nat.le_of_not_lt hlen
    have haux : ∀ (vs : List (Option String)) (m2 : VMap),
        mapsTo (vs.foldl (addCatVal col.name) m2) k d → mapsTo m2 k d ∨ d = col.name := by
      intro vs
      induction vs with
      | nil =>
        intro m2 h2
        exact Or.inl h2
      | cons v vs2 ih =>
        intro m2 h2
        rcases ih (addCatVal col.name m2 v) h2 with h3 | h3
        · rcases mapsTo_addCatVal col.name m2 v k d h3 with h4 | h4
          · exact Or.inl h4
          · exact Or.inr h4
        · exact Or.inr h3
    rcases haux col.vals m h with h1 | h1
    · exact Or.inl h1
    · exact Or.inr ⟨h1, hle⟩

theorem mapsTo_foldl_cats :
    ∀ (cols : List CatColumn) (m : VMap) (k d : String),
      mapsTo (cols.foldl addCatVals m) k d →
      mapsTo m k d ∨ ∃ c ∈ cols, d = c.name ∧ c.vals.length ≤ 1000 := by
  intro cols
  induction cols with
  | nil =>
    intro m k d h
    exact Or.inl h
  | cons c cs ih =>
    intro m k d h
    rcases ih (addCatVals m c) k d h with h1 | ⟨c2, hc2, hd⟩
    · rcases mapsTo_addCatVals m c k d h1 with h2 | h2
      · exact Or.inl h2
      · exact Or.inr ⟨c, List.mem_cons_self _ _, h2⟩
    · exact Or.inr ⟨c2, List.mem_cons_of_mem _ hc2, hd⟩

/-- Claim C8 (amended): the value scan never adds an entry from a categorical
column with more than 1000 distinct values; since column-name tokens are
indexed regardless of cardinality, any key of the semantic value index that
maps to such a column is one of the (length/stop-word filtered) tokens of its
column name — never sourced from its values scan. -/
theorem c8_high_card_only_name_tokens (ds : DataSet) (col : CatColumn)
    (hmem : col ∈ ds.catCols) (hcard : 1000 < col.vals.length)
    (hnodup : (ds.catCols.map (fun c => c.name)).Nodup) :
    ∀ k, mapsTo (build_value_map ds) k col.name →
      tokOK k = true ∧ k ∈ colNameToks col.name := by
  intro k h
  simp only [build_value_map] at h
  rcases mapsTo_foldl_cats ds.catCols _ k col.name h with h1 | ⟨c, hc, hdc, hlen⟩
  · rcases mapsTo_foldl_names _ [] k col.name h1 with h2 | ⟨hok, hk, _⟩
    · obtain ⟨cs, hcs, _⟩ := h2
      simp at hcs
    · exact ⟨hok, hk⟩
  · have hceq : c = col := by
      have hinj := List.inj_on_of_nodup_map hnodup
      exact hinj hc hmem hdc.symm
    subst hceq
    omega

set_option maxRecDepth 20000 in
theorem build_value_map_ds8 : build_value_map ds8 = [("aaa", ["aaa"])] := by
  have hlen : vals1001.length = 1001 := by
    rw [vals1001, List.length_map, List.length_range]
  have hm1 : ((ds8.catCols.map (fun c => c.name)) ++ ds8.numCols).foldl addColName [] =
      [("aaa", ["aaa"])] := rfl
  show (ds8.catCols.foldl addCatVals
    (((ds8.catCols.map (fun c => c.name)) ++ ds8.numCols).foldl addColName [])) = _
  rw [hm1]
  show addCatVals [("aaa", ["aaa"])] col8 = _
  rw [addCatVals, if_pos (by rw [show col8.vals = vals1001 from rfl, hlen]; norm_num)]

/-- Counterexample for C8 as stated: `ds8` has a categorical column with 1001
pairwise-distinct values, one of which is the string `aaa`; yet the semantic
value index contains the key `aaa` mapping to that column (as a column-name
token), so a cell value of a `>1000`-cardinality column does appear as a key
mapping to that column. -/
theorem c8_counterexample :
    vals1001.Nodup ∧ vals1001.length = 1001 ∧ some "aaa" ∈ vals1001 ∧
    build_value_map ds8 = [("aaa", ["aaa"])] := by
  refine ⟨?_, by rw [vals1001, List.length_map, List.length_range], ?_, build_value_map_ds8⟩
  · have hinj : Function.Injective fun i : Nat => some (String.mk (List.replicate i 'a')) := by
      intro i j hij
      have h2 : String.mk (List.replicate i 'a') = String.mk (List.replicate j 'a') :=
        Option.some.inj hij
      have h3 : List.replicate i 'a' = List.replicate j 'a' := by
        injection h2
      have h4 := congrArg List.length h3
      simpa using h4
    exact (List.nodup_range 1001).map hinj
  · rw [vals1001]
    refine List.mem_map.mpr ⟨3, ?_, ?_⟩
    · simp
    · rfl

set_option maxRecDepth 20000 in
/-- Witness for the amended C8 at the concrete high-cardinality dataset. -/
theorem c8_witness :
    tokOK "aaa" = true ∧ "aaa" ∈ colNameToks "aaa" :=
  c8_high_card_only_name_tokens ds8 col8 (List.mem_cons_self _ _)
    (by rw [show col8.vals = vals1001 from rfl, show vals1001.length = 1001 from by rw [vals1001, List.length_map, List.length_range]]
        norm_num)
    (by decide)
    "aaa"
    ⟨["aaa"], by rw [build_value_map_ds8]; exact List.mem_cons_self _ _, List.mem_cons_self _ _⟩

theorem vmKeys_vmAdd (k c : String) :
    ∀ (m : VMap) (k2 : String), k2 ∈ vmKeys (vmAdd m k c) → k2 ∈ vmKeys m ∨ k2 = k := by
  intro m
  induction m with
  | nil =>
    intro k2 h
    simp [vmAdd, vmKeys] at h
    exact Or.inr h
  | cons e rest ih =>
    obtain ⟨k0, cs0⟩ := e
    intro k2 h
    by_cases hk : k0 = k
    · rw [vmAdd, if_pos hk] at h
      simp [vmKeys] at h
      rcases h with h | h
      · exact Or.inl (by simp [vmKeys, h])
      · exact Or.inl (by simp [vmKeys]; exact Or.inr (by simpa [vmKeys] using h))
    · rw [vmAdd, if_neg hk] at h
      simp [vmKeys] at h
      rcases h with h | h
      · exact Or.inl (by simp [vmKeys, h])
      · rcases ih k2 (by simpa [vmKeys] using h) with h1 | h1
        · exact Or.inl (by simp [vmKeys]; exact Or.inr (by simpa [vmKeys] using h1))
        · exact Or.inr h1

theorem vmKeys_addTok (m : VMap) (t col k : String) :
    k ∈ vmKeys (addTok m t col) → k ∈ vmKeys m ∨ (k = t ∧ tokOK t = true) := by
  intro h
  rw [addTok] at h
  by_cases hok : tokOK t = true
  · rw [if_pos hok] at h
    rcases vmKeys_vmAdd t col m k h with h1 | h1
    · exact Or.inl h1
    · exact Or.inr ⟨h1, hok⟩
  · rw [if_neg hok] at h
    exact Or.inl h

theorem vmKeys_foldl_addTok (col : String) :
    ∀ (toks : List String) (m : VMap) (k : String),
      k ∈ vmKeys (toks.foldl (fun m2 t => addTok m2 t col) m) →
      k ∈ vmKeys m ∨ tokOK k = true := by
  intro toks
  induction toks with
  | nil =>
    intro m k h
    exact Or.inl h
  | cons t ts ih =>
    intro m k h
    rcases ih (addTok m t col) k h with h1 | h1
    · rcases vmKeys_addTok m t col k h1 with h2 | ⟨hk, hok⟩
      · exact Or.inl h2
      · subst hk
        exact Or.inr hok
    · exact Or.inr h1

theorem vmKeys_foldl_names :
    ∀ (cols : List String) (m : VMap) (k : String),
      k ∈ vmKeys (cols.foldl addColName m) → k ∈ vmKeys m ∨ tokOK k = true := by
  intro cols
  induction cols with
  | nil =>
    intro m k h
    exact Or.inl h
  | cons c cs ih =>
    intro m k h
    rcases ih (addColName m c) k h with h1 | h1
    · rw [addColName] at h1
      exact vmKeys_foldl_addTok c (colNameToks c) m k h1
    · exact Or.inr h1

theorem vmKeys_addCatVal (cname : String) (m : VMap) (v? : Option String) (k : String) :
    k ∈ vmKeys (addCatVal cname m v?) →
      k ∈ vmKeys m ∨ tokOK k = true ∨
        (∃ v, v? = some v ∧ k = pyLower (pyStrip v) ∧ k ≠ "") := by
  intro h
  cases v? with
  | none => exact Or.inl h
  | some v =>
    rw [addCatVal] at h
    by_cases hv : pyLower (pyStrip v) = ""
    · rw [if_pos hv] at h
      exact Or.inl h
    · rw [if_neg hv] at h
      rcases vmKeys_foldl_addTok cname (pyWords (pyLower (pyStrip v)))
          (vmAdd m (pyLower (pyStrip v)) cname) k h with h1 | h1
      · rcases vmKeys_vmAdd (pyLower (pyStrip v)) cname m k h1 with h2 | h2
        · exact Or.inl h2
        · exact Or.inr (Or.inr ⟨v, rfl, h2, by rw [h2]; exact hv⟩)
      · exact Or.inr (Or.inl h1)

theorem vmKeys_addCatVals (m : VMap) (col : CatColumn) (k : String) :
    k ∈ vmKeys (addCatVals m col) →
      k ∈ vmKeys m ∨ tokOK k = true ∨
        (col.vals.length ≤ 1000 ∧
          ∃ v, some v ∈ col.vals ∧ k = pyLower (pyStrip v) ∧ k ≠ "") := by
  intro h
  rw [addCatVals] at h
  by_cases hlen : col.vals.length > 1000
  · rw [if_pos hlen] at h
    exact Or.inl h
  · rw [if_neg hlen] at h
    have hle : col.vals.length ≤ 1000 := Nat.le_of_not_lt hlen
    have haux : ∀ (vs : List (Option String)) (m2 : VMap),
        k ∈ vmKeys (vs.foldl (addCatVal col.name) m2) →
        k ∈ vmKeys m2 ∨ tokOK k = true ∨
          (∃ v, some v ∈ vs ∧ k = pyLower (pyStrip v) ∧ k ≠ "") := by
      intro vs
      induction vs with
      | nil =>
        intro m2 h2
        exact Or.inl h2
      | cons v vs2 ih =>
        intro m2 h2
        rcases ih (addCatVal col.name m2 v) h2 with h3 | h3 | ⟨w, hw, hk⟩
        · rcases vmKeys_addCatVal col.name m2 v k h3 with h4 | h4 | ⟨w, hw, hk⟩
          · exact Or.inl h4
          · exact Or.inr (Or.inl h4)
          · exact Or.inr (Or.inr ⟨w, by rw [← hw]; exact List.mem_cons_self _ _, hk⟩)
        · exact Or.inr (Or.inl h3)
        · exact Or.inr (Or.inr ⟨w, List.mem_cons_of_mem _ hw, hk⟩)
    rcases haux col.vals m h with h1 | h1 | ⟨v, hv, hk⟩
    · exact Or.inl h1
    · exact Or.inr (Or.inl h1)
    · exact Or.inr (Or.inr ⟨hle, v, hv, hk⟩)

theorem vmKeys_foldl_cats :
    ∀ (cols : List CatColumn) (m : VMap) (k : String),
      k ∈ vmKeys (cols.foldl addCatVals m) →
      k ∈ vmKeys m ∨ tokOK k = true ∨
        ∃ c ∈ cols, c.vals.length ≤ 1000 ∧
          ∃ v, some v ∈ c.vals ∧ k = pyLower (pyStrip v) ∧ k ≠ "" := by
  intro cols
  induction cols with
  | nil =>
    intro m k h
    exact Or.inl h
  | cons c cs ih =>
    intro m k h
    rcases ih (addCatVals m c) k h with h1 | h1 | ⟨c2, hc2, hrest⟩
    · rcases vmKeys_addCatVals m c k h1 with h2 | h2 | h2
      · exact Or.inl h2
      · exact Or.inr (Or.inl h2)
      · exact Or.inr (Or.inr ⟨c, List.mem_cons_self _ _, h2⟩)
    · exact Or.inr (Or.inl h1)
    · exact Or.inr (Or.inr ⟨c2, List.mem_cons_of_mem _ hc2, hrest⟩)

/-- Claim C9 (amended): every key of the semantic value index either passes
the `add_token` filter — length greater than 2 and not a stop word — or is
the normalized (stripped, lowercased, non-empty) full cell value of some
categorical column within the 1000-distinct-values cardinality guard; full
cell values bypass the length/stop-word filter. -/
theorem c9_keys_filtered_or_full_value (ds : DataSet) :
    ∀ k ∈ vmKeys (build_value_map ds),
      tokOK k = true ∨
        ∃ c ∈ ds.catCols, c.vals.length ≤ 1000 ∧
          ∃ v, some v ∈ c.vals ∧ k = pyLower (pyStrip v) ∧ k ≠ "" := by
  intro k h
  simp only [build_value_map] at h
  rcases vmKeys_foldl_cats ds.catCols _ k h with h1 | h1 | h1
  · rcases vmKeys_foldl_names _ [] k h1 with h2 | h2
    · simp [vmKeys] at h2
    · exact Or.inl h2
  · exact Or.inl h1
  · exact Or.inr h1

/-- Counterexample for C9 as stated: the dataset `ds9` has a categorical
column whose only value is the two-character string `ab`; that full value is
inserted as a key of the index even though its length is not greater than 2. -/
theorem c9_counterexample :
    build_value_map ds9 = [("colx", ["colx"]), ("ab", ["colx"])] ∧
    ("ab" : String).length = 2 := by
  constructor <;> rfl

/-- Witness for the amended C9 at the concrete two-character cell value. -/
theorem c9_witness :
    tokOK "ab" = true ∨
      ∃ c ∈ ds9.catCols, c.vals.length ≤ 1000 ∧
        ∃ v, some v ∈ c.vals ∧ "ab" = pyLower (pyStrip v) ∧ "ab" ≠ "" :=
  c9_keys_filtered_or_full_value ds9 "ab" (by decide)

/-- Witness for the amended C5 at a concrete all-failures run. -/
theorem c5_witness :
    ∃ retryEvs saveEvs,
      (orchestrator_act env5 cr5 false "q" ctx0).2.1 =
        Event.coderCall "q" :: Event.criticCall (cr5 "q") :: (retryEvs ++ saveEvs) ∧
      RetryShape "q" cr5 (cr5 "q") retryEvs ∧
      (∀ e ∈ saveEvs, ∃ a b, e = Event.memorySave a b) ∧
      criticCount (orchestrator_act env5 cr5 false "q" ctx0).2.1 = 1 :=
  c5_review_once_regen env5 cr5 false "q" ctx0
